import Mathlib

/-!
Shallow embedding of the internet-streaming audio subsystem of
src/indra/llaudio/llstreamingaudio_fmodstudio.cpp (SingularityViewer).

Modelling conventions:
* F32 sample and gain values are modelled as exact rationals; the claims
  under study concern data flow (which samples are kept, which value is
  passed to the engine), not floating-point rounding.
* C++ machine integers appearing here (U32 sizes, counts) are modelled as
  Nat; all uses in scope are non-negative and far below 2^32.
* The plain C++ type of the byte buffers handed to the decoders is
  signed char on every platform this file is built for (MSVC and x86
  gcc/clang), so a comparison of such a char against an int literal such
  as 0xFE promotes the char through sign extension.  signedCharVal models
  that promotion exactly.
* Calls into the external FMOD engine are modelled by oracle parameters
  giving the engine's reply (open state, release success, created channel
  id, ...); the logging macros are no-ops.
-/

namespace StreamingAudio

/-- Fixed capacity of the global waveform ring buffer (WAVE_BUFFER_SIZE). -/
def WAVE_BUFFER_SIZE : Nat := 1024

/-- State of the file-scope waveform globals.  The C++ array
gWaveDataBuffer is fixed size; only the filled region
[WAVE_BUFFER_SIZE - gWaveDataBufferSize, WAVE_BUFFER_SIZE) is ever read
or written, so data models that region in ascending index order (the
head of the list sits at index WAVE_BUFFER_SIZE - size, which is the
most recently written cell). -/
structure WaveBuffer where
  data : List ℚ
  size : Nat
  minSize : Nat
deriving DecidableEq, Repr

/-- Initial global state: zeroed buffer, gWaveDataBufferSize = 0,
gWaveBufferMinSize = 0. -/
def initWaveBuffer : WaveBuffer := { data := [], size := 0, minSize := 0 }

/-- One iteration of the write loop of waveDataCallback: increment
gWaveDataBufferSize, and if it would exceed the capacity, copy the first
gWaveBufferMinSize cells of the region onto the last gWaveBufferMinSize
cells and reset the size to 1 + gWaveBufferMinSize; then store the sample
at index WAVE_BUFFER_SIZE - gWaveDataBufferSize (the new head of the
region). -/
def pushSample (b : WaveBuffer) (x : ℚ) : WaveBuffer :=
  if b.size + 1 > WAVE_BUFFER_SIZE then
    { data := x :: b.data.take b.minSize, size := 1 + b.minSize, minSize := b.minSize }
  else
    { data := x :: b.data, size := b.size + 1, minSize := b.minSize }

/-- Push a whole sequence of samples, first element pushed first. -/
def pushMany (b : WaveBuffer) (ps : List ℚ) : WaveBuffer :=
  ps.foldl pushSample b

/-- The DSP read callback waveDataCallback.  inbuffer holds length
frames of inchannels samples each; each frame is mixed down to the mono
average, and the loop `for (i = length; i > 0; --i)` then pushes
local_buf[length-1] first and local_buf[0] last (each block is inserted
newest-sample-first). -/
def waveDataCallback (b : WaveBuffer) (inchannels : Nat) (inbuffer : List (List ℚ)) :
    WaveBuffer :=
  if inbuffer.length = 0 ∨ inchannels = 0 then b
  else
    let local_buf := inbuffer.map (fun frame => frame.sum / (inchannels : ℚ))
    pushMany b local_buf.reverse

/-- Outcome of LLStreamingAudio_FMODSTUDIO::getWaveData: LL_ERRS (a
fatal, unrecoverable abort), a false return, or a true return together
with the count samples written into the caller's array. -/
inductive WaveStatus where
  | fatal : WaveStatus
  | noData : WaveStatus
  | ok : List ℚ → WaveStatus
deriving DecidableEq, Repr

/-- LLStreamingAudio_FMODSTUDIO::getWaveData.  hasChannel and hasStream
model mFMODInternetStreamChannelp and mCurrentInternetStreamp being
non-null, muted the engine's getMute reply.  Returns the result together
with the updated globals (gWaveBufferMinSize is assigned count inside the
lock, before the empty-buffer early return).  The stride parameter exists
in the C++ signature but is never read by the implementation. -/
def getWaveData (hasChannel hasStream muted : Bool) (b : WaveBuffer)
    (count _stride : Nat) : WaveStatus × WaveBuffer :=
  if count > WAVE_BUFFER_SIZE / 2 then (.fatal, b)
  else if hasChannel = false ∨ hasStream = false then (.noData, b)
  else if muted then (.noData, b)
  else
    let b := { b with minSize := count }
    if b.size = 0 then (.noData, b)
    else
      (.ok ((b.data.take (min count b.size)) ++ List.replicate (count - b.size) (0 : ℚ)), b)

/-- The value an int-promoted plain char holds for a byte b when plain
char is signed (MSVC / x86 gcc, the platforms this code targets). -/
def signedCharVal (b : Nat) : Int :=
  if b < 128 then (b : Int) else (b : Int) - 256

/-- The C++ comparison of a plain (signed) char holding byte b against
an int literal. -/
def signedCharEq (b lit : Nat) : Bool :=
  signedCharVal b == (lit : Int)

/-- utf_endian_type_t from the source. -/
inductive utf_endian_type_t where
  | UTF16LE : utf_endian_type_t
  | UTF16BE : utf_endian_type_t
  | UTF16 : utf_endian_type_t
deriving DecidableEq, Repr

/-- Reinterpreting the byte array as U16 units on the (little-endian)
host: unit k is bytes[2k] + 256 * bytes[2k+1]; a trailing odd byte is
handled separately by the caller. -/
def bytePairsLE : List Nat → List Nat
  | b0 :: b1 :: rest => (b0 + 256 * b1) :: bytePairsLE rest
  | _ => []

/-- The byte swap applied per unit for the big-endian case:
((v & 0x00FF) << 8) | ((v & 0xFF00) >> 8). -/
def byteswap16 (v : Nat) : Nat :=
  (v % 256) * 256 + (v / 256) % 256

/-- utf16input_to_utf8 up to (but not including) the final call of the
external library routine utf16str_to_utf8str: it returns the list of
UTF-16 code units handed to that routine.  The auto-detect branch first
defaults to UTF16BE, then, when len > 2, compares input[0]/input[1]
against 0xFE/0xFF with plain-char (signed) semantics, and on a match
advances the input by two and re-reads the (already advanced) input[0]
to pick the endianness.  An odd trailing byte is pushed as
(char value << 8) truncated to 16 bits, which equals byte * 256. -/
def utf16input_to_utf16units (input : List Nat) (t : utf_endian_type_t) : List Nat :=
  let stripped : List Nat × utf_endian_type_t :=
    match t with
    | .UTF16 =>
      if input.length > 2 ∧
         ((signedCharEq (input.getD 0 0) 0xFE ∧ signedCharEq (input.getD 1 0) 0xFF) ∨
          (signedCharEq (input.getD 0 0) 0xFF ∧ signedCharEq (input.getD 1 0) 0xFE)) then
        let rest := input.drop 2
        (rest, if signedCharEq (rest.getD 0 0) 0xFE then .UTF16BE else .UTF16LE)
      else
        (input, .UTF16BE)
    | other => (input, other)
  let body := stripped.1
  let units := bytePairsLE body
  let units :=
    if body.length % 2 = 1 then units ++ [(body.getLast?.getD 0) * 256]
    else units
  if stripped.2 = .UTF16BE then units.map byteswap16 else units

/-- The trailing-null strip applied to every decoded string tag payload:
if (out.length() && out.back() == 0) out.pop_back(). -/
def stripTrailingNull (out : List Nat) : List Nat :=
  if out.length ≠ 0 ∧ out.getLast?.getD 1 = 0 then out.dropLast else out

/-- The FMOD_TAGDATATYPE_STRING_UTF8 branch of the tag loop in
LLStreamingAudio_FMODSTUDIO::update: when datalen > 3 and the first
three plain chars compare equal to 0xEF 0xBB 0xBF the offset is 3,
otherwise 0; the stored string is the payload from that offset with a
single trailing null stripped. -/
def storeTagStringUTF8 (data : List Nat) : List Nat :=
  let offs : Nat :=
    if data.length > 3 ∧ signedCharEq (data.getD 0 0) 0xEF ∧
       signedCharEq (data.getD 1 0) 0xBB ∧ signedCharEq (data.getD 2 0) 0xBF
    then 3 else 0
  stripTrailingNull (data.drop offs)

/-- FMOD_OPENSTATE, the open-state enum reported by the engine. -/
inductive FMOD_OPENSTATE where
  | ready : FMOD_OPENSTATE
  | loading : FMOD_OPENSTATE
  | error : FMOD_OPENSTATE
  | connecting : FMOD_OPENSTATE
  | buffering : FMOD_OPENSTATE
  | seeking : FMOD_OPENSTATE
  | playing : FMOD_OPENSTATE
  | setposition : FMOD_OPENSTATE
deriving DecidableEq, Repr

/-- LLAudioStreamManagerFMODSTUDIO, the per-stream handle.  Engine
objects (FMOD::Sound*, FMOD::Channel*) are modelled as optional opaque
ids; none models a null pointer. -/
structure LLAudioStreamManagerFMODSTUDIO where
  mStreamChannel : Option Nat
  mInternetStream : Option Nat
  mReady : Bool
  mInternetStreamURL : String
deriving DecidableEq, Repr

/-- The handle constructor: createStream is issued with the url;
createResult is the engine's reply (some id on FMOD_OK, none on
failure, in which case mInternetStream stays null and mReady false). -/
def mkAudioStreamManager (url : String) (createResult : Option Nat) :
    LLAudioStreamManagerFMODSTUDIO :=
  match createResult with
  | none =>
    { mStreamChannel := none, mInternetStream := none, mReady := false,
      mInternetStreamURL := url }
  | some sid =>
    { mStreamChannel := none, mInternetStream := some sid, mReady := true,
      mInternetStreamURL := url }

/-- LLAudioStreamManagerFMODSTUDIO::getOpenState.  The body dereferences
mInternetStream unconditionally; when the pointer is null the behaviour
is undefined, modelled as none.  st is the state the engine would
report. -/
def getOpenState (h : LLAudioStreamManagerFMODSTUDIO) (st : FMOD_OPENSTATE) :
    Option FMOD_OPENSTATE :=
  match h.mInternetStream with
  | none => none
  | some _ => some st

/-- LLAudioStreamManagerFMODSTUDIO::startStream.  Guarded by a null
check on mInternetStream before getOpenState is consulted; returns the
cached channel if one exists, otherwise stores and returns whatever
channel playSound produced (playChannel, possibly none on failure). -/
def startStream (h : LLAudioStreamManagerFMODSTUDIO) (st : FMOD_OPENSTATE)
    (playChannel : Option Nat) : Option Nat × LLAudioStreamManagerFMODSTUDIO :=
  if h.mInternetStream = none ∨ getOpenState h st ≠ some .ready then (none, h)
  else
    match h.mStreamChannel with
    | some c => (some c, h)
    | none => (playChannel, { h with mStreamChannel := playChannel })

/-- LLAudioStreamManagerFMODSTUDIO::stopStream.  Returns (result,
updated handle, whether release was invoked).  With a live stream the
switch sets close = false exactly for FMOD_OPENSTATE_CONNECTING; release
is attempted only when close holds (short-circuit &&), and on FMOD_OK
both the channel and stream pointers are nulled. -/
def stopStream (h : LLAudioStreamManagerFMODSTUDIO) (st : FMOD_OPENSTATE)
    (releaseOk : Bool) : Bool × LLAudioStreamManagerFMODSTUDIO × Bool :=
  match h.mInternetStream with
  | none => (true, h, false)
  | some _ =>
    let close : Bool := st ≠ .connecting
    if close ∧ releaseOk then
      (true, { h with mStreamChannel := none, mInternetStream := none }, true)
    else
      (false, h, close)

/-- LLStreamingAudio_FMODSTUDIO, the controller, together with the
file-scope waveform globals it manipulates.  mMetaData : Bool records
whether the LLSD map is allocated (its contents are modelled by the
storeTagString functions); mStreamDSP records whether the DSP tap was
created. -/
structure LLStreamingAudio_FMODSTUDIO where
  mCurrentInternetStreamp : Option LLAudioStreamManagerFMODSTUDIO
  mFMODInternetStreamChannelp : Option Nat
  mPendingURL : String
  mURL : String
  mGain : ℚ
  mMetaData : Bool
  mDeadStreams : List LLAudioStreamManagerFMODSTUDIO
  mStreamDSP : Bool
  wave : WaveBuffer
deriving DecidableEq, Repr

/-- LLStreamingAudio_FMODSTUDIO::getURL. -/
def getURL (s : LLStreamingAudio_FMODSTUDIO) : String := s.mURL

/-- LLStreamingAudio_FMODSTUDIO::getGain. -/
def getGain (s : LLStreamingAudio_FMODSTUDIO) : ℚ := s.mGain

/-- llclamp from llmath.h: clamp a value into [aminv, amaxv]. -/
def llclamp (a aminv amaxv : ℚ) : ℚ :=
  if a < aminv then aminv else if a > amaxv then amaxv else a

/-- LLStreamingAudio_FMODSTUDIO::setGain: the gain is stored linearly in
mGain; when a channel is live the engine's setVolume receives the square
of the gain clamped into [0,1] (returned as the second component, none
when no channel exists). -/
def setGain (s : LLStreamingAudio_FMODSTUDIO) (vol : ℚ) :
    LLStreamingAudio_FMODSTUDIO × Option ℚ :=
  let s := { s with mGain := vol }
  match s.mFMODInternetStreamChannelp with
  | some _ => (s, some (llclamp (vol * vol) 0 1))
  | none => (s, none)

/-- LLStreamingAudio_FMODSTUDIO::stop.  stopOracle gives, for the
current handle's stopStream call, the engine open state and whether
release would succeed.  Clears the pending URL, frees the metadata map,
deactivates the DSP tap and zeroes the global fill count, detaches the
channel reference, and either destroys the current handle (close
succeeded) or appends it to the dead-stream list; mURL is untouched
(the source's mURL.clear() is commented out). -/
def stop (s : LLStreamingAudio_FMODSTUDIO) (stopOracle : FMOD_OPENSTATE × Bool) :
    LLStreamingAudio_FMODSTUDIO :=
  let s := { s with mPendingURL := "", mMetaData := false }
  let s :=
    if s.mStreamDSP then { s with wave := { s.wave with data := [], size := 0 } }
    else s
  let s := { s with mFMODInternetStreamChannelp := none }
  match s.mCurrentInternetStreamp with
  | none => s
  | some cur =>
    if (stopStream cur stopOracle.1 stopOracle.2).1 then
      { s with mCurrentInternetStreamp := none }
    else
      { s with mCurrentInternetStreamp := none,
               mDeadStreams := s.mDeadStreams ++ [cur] }

/-- LLStreamingAudio_FMODSTUDIO::start.  Internally calls stop() first;
with a non-empty url it opens a new handle right away only when the
dead-stream list is empty, otherwise it parks the url in mPendingURL;
with an empty url it clears mURL. -/
def start (s : LLStreamingAudio_FMODSTUDIO) (url : String)
    (stopOracle : FMOD_OPENSTATE × Bool) (createResult : Option Nat) :
    LLStreamingAudio_FMODSTUDIO :=
  let s := stop s stopOracle
  if url ≠ "" then
    if s.mDeadStreams = [] then
      { s with mCurrentInternetStreamp := some (mkAudioStreamManager url createResult),
               mURL := url, mMetaData := true }
    else
      { s with mPendingURL := url }
  else
    { s with mURL := "" }

/-- LLStreamingAudio_FMODSTUDIO::releaseDeadStreams, modelled on the
dead list alone: each entry is offered its (open state, release ok)
oracle pair in order; entries whose stopStream succeeds are destroyed
and removed, the others stay (a missing oracle entry counts as a failed
close).  The method's boolean result is the emptiness of the returned
list. -/
def releaseDeadStreams :
    List LLAudioStreamManagerFMODSTUDIO → List (FMOD_OPENSTATE × Bool) →
    List LLAudioStreamManagerFMODSTUDIO
  | [], _ => []
  | h :: rest, [] => h :: releaseDeadStreams rest []
  | h :: rest, o :: os =>
    if (stopStream h o.1 o.2).1 then releaseDeadStreams rest os
    else h :: releaseDeadStreams rest os

/-- Engine replies consumed by one LLStreamingAudio_FMODSTUDIO::update
tick. -/
structure UpdateOracle where
  deadOracle : List (FMOD_OPENSTATE × Bool)
  createResult : Option Nat
  curState : FMOD_OPENSTATE
  progress : Nat
  starving : Bool
  diskbusy : Bool
  playChannel : Option Nat
  stopOracle : FMOD_OPENSTATE × Bool
deriving DecidableEq, Repr

/-- The tail of LLStreamingAudio_FMODSTUDIO::update, run once a live
current handle has been polled (the poll produced open_state): on READY
with no channel yet, lazily start playback, cache the channel, restore
the gain, activate the DSP tap and unpause (the last three only touch
the engine); on ERROR stop the whole session and return; while a channel
is live, lazily allocate the metadata map (the tag walk rewrites only
the map's contents, modelled by the storeTagString functions, and the
starvation block issues only the engine calls modelled by
starvationPolicy). -/
def updateTail (s : LLStreamingAudio_FMODSTUDIO) (cur : LLAudioStreamManagerFMODSTUDIO)
    (open_state : FMOD_OPENSTATE) (o : UpdateOracle) : LLStreamingAudio_FMODSTUDIO :=
  let s :=
    if open_state = .ready ∧ s.mFMODInternetStreamChannelp = none then
      { s with mFMODInternetStreamChannelp := (startStream cur open_state o.playChannel).1,
               mCurrentInternetStreamp := some (startStream cur open_state o.playChannel).2 }
    else s
  if open_state = .error then stop s o.stopOracle
  else
    if s.mFMODInternetStreamChannelp ≠ none ∧ s.mMetaData = false then
      { s with mMetaData := true }
    else s

/-- LLStreamingAudio_FMODSTUDIO::update.  Drains the dead list first and
returns early while it stays non-empty; then promotes a pending URL to a
fresh current handle; then polls the current handle's open state (a null
mInternetStream makes that dereference undefined, modelled as none) and
hands over to updateTail. -/
def update (s : LLStreamingAudio_FMODSTUDIO) (o : UpdateOracle) :
    Option LLStreamingAudio_FMODSTUDIO :=
  let dead := releaseDeadStreams s.mDeadStreams o.deadOracle
  let s := { s with mDeadStreams := dead }
  if dead ≠ [] then some s
  else
    let s :=
      if s.mPendingURL ≠ "" then
        { s with mCurrentInternetStreamp :=
                   some (mkAudioStreamManager s.mPendingURL o.createResult),
                 mURL := s.mPendingURL, mMetaData := true, mPendingURL := "" }
      else s
    match s.mCurrentInternetStreamp with
    | none => some s
    | some cur =>
      match getOpenState cur o.curState with
      | none => none
      | some open_state => some (updateTail s cur open_state o)

/-- A call the starvation-policy block may issue on the stream channel. -/
inductive ChannelCmd where
  | setPaused : Bool → ChannelCmd
deriving DecidableEq, Repr

/-- The starvation block of update (the tail of the channel-active
section): on starving it reads the channel's paused flag and pauses only
when not already paused; otherwise, when the buffered percentage exceeds
80, it unpauses.  Returns the channel's new paused flag and the engine
calls issued. -/
def starvationPolicy (starving : Bool) (progress : Nat) (paused : Bool) :
    Bool × List ChannelCmd :=
  if starving then
    if paused = false then (true, [.setPaused true])
    else (paused, [])
  else if progress > 80 then (false, [.setPaused false])
  else (paused, [])

/-- Iterate the starvation block over a run of ticks that all report
starving = true, threading the channel's paused flag; each list entry is
that tick's buffered percentage.  Returns the final paused flag and the
concatenated engine calls. -/
def runStarvingTicks (paused : Bool) : List Nat → Bool × List ChannelCmd
  | [] => (paused, [])
  | p :: ps =>
    let r := starvationPolicy true p paused
    let rest := runStarvingTicks r.1 ps
    (rest.1, r.2 ++ rest.2)

/-- The number of pause (setPaused true) calls in a command list. -/
def pauseCalls (cmds : List ChannelCmd) : Nat :=
  (cmds.filter (fun c => c = ChannelCmd.setPaused true)).length

/-- A named form of the empty string, used when a string literal would
otherwise appear as a bare function argument. -/
def emptyURL : String := ""

/-- A sample stream url for concrete instantiations. -/
def urlA : String := "http://radio.example/streamA"

/-- A playing-state sample handle. -/
def sampleHandle : LLAudioStreamManagerFMODSTUDIO :=
  { mStreamChannel := some 7, mInternetStream := some 3, mReady := true,
    mInternetStreamURL := urlA }

/-- A handle parked on the dead list. -/
def deadHandle : LLAudioStreamManagerFMODSTUDIO :=
  { mStreamChannel := none, mInternetStream := some 4, mReady := true,
    mInternetStreamURL := urlA }

/-- A controller whose dead list still holds one undrainable handle. -/
def busyState : LLStreamingAudio_FMODSTUDIO :=
  { mCurrentInternetStreamp := none, mFMODInternetStreamChannelp := none,
    mPendingURL := "", mURL := "", mGain := 1, mMetaData := false,
    mDeadStreams := [deadHandle], mStreamDSP := true, wave := initWaveBuffer }

/-- An idle controller: nothing current, nothing dead, nothing pending. -/
def idleState : LLStreamingAudio_FMODSTUDIO :=
  { mCurrentInternetStreamp := none, mFMODInternetStreamChannelp := none,
    mPendingURL := "", mURL := "", mGain := 1, mMetaData := false,
    mDeadStreams := [], mStreamDSP := true, wave := initWaveBuffer }

/-- A controller with a deferred url waiting in the pending slot. -/
def pendingState : LLStreamingAudio_FMODSTUDIO :=
  { mCurrentInternetStreamp := none, mFMODInternetStreamChannelp := none,
    mPendingURL := urlA, mURL := "", mGain := 1, mMetaData := false,
    mDeadStreams := [], mStreamDSP := true, wave := initWaveBuffer }

/-- A controller with a live channel, for gain instantiations. -/
def playingState : LLStreamingAudio_FMODSTUDIO :=
  { mCurrentInternetStreamp := some sampleHandle,
    mFMODInternetStreamChannelp := some 7, mPendingURL := "", mURL := urlA,
    mGain := 1, mMetaData := true, mDeadStreams := [], mStreamDSP := true,
    wave := initWaveBuffer }

/-- An update oracle whose dead-stream close attempt fails (the stream
is still connecting, so release is deferred). -/
def failOracle : UpdateOracle :=
  { deadOracle := [(FMOD_OPENSTATE.connecting, false)], createResult := none,
    curState := FMOD_OPENSTATE.ready, progress := 0, starving := false,
    diskbusy := false, playChannel := none,
    stopOracle := (FMOD_OPENSTATE.ready, true) }

/-- An update oracle whose createStream succeeds. -/
def goodOracle : UpdateOracle :=
  { deadOracle := [], createResult := some 9,
    curState := FMOD_OPENSTATE.ready, progress := 90, starving := false,
    diskbusy := false, playChannel := some 11,
    stopOracle := (FMOD_OPENSTATE.ready, true) }

/-- 1025 one-sample mono frames handed to the DSP callback in one
block: one more sample than the buffer can hold. -/
def overflowFrames : List (List ℚ) := List.replicate 1025 [(0 : ℚ)]

/-- 1024 zero samples: exactly fills the ring buffer. -/
def fillPushes : List ℚ := List.replicate 1024 (0 : ℚ)

/-- A short push sequence for getWaveData instantiations. -/
def wavePushes : List ℚ := [1, 2, 3]

theorem pushSample_of_full (b : WaveBuffer) (x : ℚ)
    (h : b.size + 1 > WAVE_BUFFER_SIZE) :
    pushSample b x =
      { data := x :: b.data.take b.minSize, size := 1 + b.minSize,
        minSize := b.minSize } := by
  unfold pushSample; rw [if_pos h]

theorem pushSample_of_not_full (b : WaveBuffer) (x : ℚ)
    (h : ¬ b.size + 1 > WAVE_BUFFER_SIZE) :
    pushSample b x =
      { data := x :: b.data, size := b.size + 1, minSize := b.minSize } := by
  unfold pushSample; rw [if_neg h]

theorem pushSample_minSize (b : WaveBuffer) (x : ℚ) :
    (pushSample b x).minSize = b.minSize := by
  unfold pushSample; split <;> rfl

theorem pushSample_spec (b : WaveBuffer) (x : ℚ)
    (hlen : b.data.length = b.size) (hsz : b.size ≤ WAVE_BUFFER_SIZE)
    (hmin : b.minSize + 1 ≤ WAVE_BUFFER_SIZE) :
    (pushSample b x).data.length = (pushSample b x).size ∧
    (pushSample b x).size ≤ WAVE_BUFFER_SIZE ∧
    (pushSample b x).data = (x :: b.data).take ((pushSample b x).size) ∧
    (pushSample b x).size ≤ b.size + 1 := by
  by_cases h : b.size + 1 > WAVE_BUFFER_SIZE
  · have hbs : b.size = WAVE_BUFFER_SIZE := le_antisymm hsz (by omega)
    rw [pushSample_of_full b x h]
    refine ⟨?_, by dsimp only; omega, ?_, by dsimp only; omega⟩
    · dsimp only
      simp only [List.length_cons, List.length_take, hlen, hbs]
      omega
    · dsimp only
      rw [Nat.add_comm 1 b.minSize, List.take_succ_cons]
  · rw [pushSample_of_not_full b x h]
    refine ⟨by simp [hlen], by dsimp only; omega, ?_, by dsimp only; omega⟩
    dsimp only
    rw [List.take_succ_cons, ← hlen, List.take_length]

theorem pushMany_spec (ps : List ℚ) (b : WaveBuffer)
    (hlen : b.data.length = b.size) (hsz : b.size ≤ WAVE_BUFFER_SIZE)
    (hmin : b.minSize + 1 ≤ WAVE_BUFFER_SIZE) :
    (pushMany b ps).data.length = (pushMany b ps).size ∧
    (pushMany b ps).size ≤ WAVE_BUFFER_SIZE ∧
    (pushMany b ps).minSize = b.minSize ∧
    (pushMany b ps).data = (ps.reverse ++ b.data).take ((pushMany b ps).size) ∧
    (pushMany b ps).size ≤ b.size + ps.length := by
  induction ps generalizing b with
  | nil =>
    refine ⟨hlen, hsz, rfl, ?_, by simp [pushMany]⟩
    simp only [pushMany, List.foldl_nil, List.reverse_nil, List.nil_append, ← hlen,
      List.take_length]
  | cons p ps ih =>
    have step := pushSample_spec b p hlen hsz hmin
    have hmin' : (pushSample b p).minSize + 1 ≤ WAVE_BUFFER_SIZE := by
      rw [pushSample_minSize]; exact hmin
    have ihp := ih (pushSample b p) step.1 step.2.1 hmin'
    have hfold : pushMany b (p :: ps) = pushMany (pushSample b p) ps := by
      simp [pushMany]
    rw [hfold]
    refine ⟨ihp.1, ihp.2.1, by rw [ihp.2.2.1, pushSample_minSize], ?_, ?_⟩
    · have hsingle : (p :: ps).reverse ++ b.data = ps.reverse ++ (p :: b.data) := by
        simp
      have hb : (pushMany (pushSample b p) ps).size - ps.reverse.length ≤
          (pushSample b p).size := by
        have := ihp.2.2.2.2
        simp only [List.length_reverse]
        omega
      rw [hsingle, ihp.2.2.2.1, step.2.2.1,
        List.take_append_eq_append_take, List.take_append_eq_append_take,
        List.take_take, Nat.min_eq_left hb]
    · have := ihp.2.2.2.2
      have := step.2.2.2
      simp only [List.length_cons]
      omega

theorem stop_eq (s : LLStreamingAudio_FMODSTUDIO) (o : FMOD_OPENSTATE × Bool) :
    stop s o =
      { mCurrentInternetStreamp := none,
        mFMODInternetStreamChannelp := none,
        mPendingURL := "",
        mURL := s.mURL,
        mGain := s.mGain,
        mMetaData := false,
        mDeadStreams := s.mDeadStreams ++
          (match s.mCurrentInternetStreamp with
           | none => []
           | some cur => if (stopStream cur o.1 o.2).1 then [] else [cur]),
        mStreamDSP := s.mStreamDSP,
        wave := if s.mStreamDSP then { s.wave with data := [], size := 0 } else s.wave } := by
  unfold stop
  cases hcur : s.mCurrentInternetStreamp with
  | none => by_cases hdsp : s.mStreamDSP <;> simp [hcur, hdsp]
  | some cur =>
    by_cases hdsp : s.mStreamDSP <;>
      by_cases hstop : (stopStream cur o.1 o.2).1 <;>
        simp [hcur, hdsp, hstop]

theorem releaseDeadStreams_nil (os : List (FMOD_OPENSTATE × Bool)) :
    releaseDeadStreams [] os = [] := by
  unfold releaseDeadStreams; rfl

theorem releaseDeadStreams_ne_nil {l : List LLAudioStreamManagerFMODSTUDIO}
    {os : List (FMOD_OPENSTATE × Bool)} (h : releaseDeadStreams l os ≠ []) :
    l ≠ [] := by
  intro hl
  rw [hl, releaseDeadStreams_nil] at h
  exact h rfl

theorem start_eq_create (s : LLStreamingAudio_FMODSTUDIO) (url : String)
    (stopO : FMOD_OPENSTATE × Bool) (createO : Option Nat)
    (hurl : url ≠ "") (hdead : (stop s stopO).mDeadStreams = []) :
    start s url stopO createO =
      { stop s stopO with
        mCurrentInternetStreamp := some (mkAudioStreamManager url createO),
        mURL := url, mMetaData := true } := by
  unfold start
  simp [hurl, hdead]

theorem start_eq_defer (s : LLStreamingAudio_FMODSTUDIO) (url : String)
    (stopO : FMOD_OPENSTATE × Bool) (createO : Option Nat)
    (hurl : url ≠ "") (hdead : (stop s stopO).mDeadStreams ≠ []) :
    start s url stopO createO = { stop s stopO with mPendingURL := url } := by
  unfold start
  simp [hurl, hdead]

theorem start_eq_clear (s : LLStreamingAudio_FMODSTUDIO) (url : String)
    (stopO : FMOD_OPENSTATE × Bool) (createO : Option Nat) (hurl : url = "") :
    start s url stopO createO = { stop s stopO with mURL := "" } := by
  unfold start
  simp [hurl]

theorem update_undrained (s : LLStreamingAudio_FMODSTUDIO) (o : UpdateOracle)
    (h : releaseDeadStreams s.mDeadStreams o.deadOracle ≠ []) :
    update s o =
      some { s with mDeadStreams := releaseDeadStreams s.mDeadStreams o.deadOracle } := by
  unfold update
  simp [h]

theorem update_drained_idle (s : LLStreamingAudio_FMODSTUDIO) (o : UpdateOracle)
    (hdr : releaseDeadStreams s.mDeadStreams o.deadOracle = [])
    (hpend : s.mPendingURL = "") (hcur : s.mCurrentInternetStreamp = none) :
    update s o = some { s with mDeadStreams := [] } := by
  unfold update
  simp [hdr, hpend, hcur]

theorem update_crash (s : LLStreamingAudio_FMODSTUDIO) (o : UpdateOracle)
    (cur : LLAudioStreamManagerFMODSTUDIO)
    (hdr : releaseDeadStreams s.mDeadStreams o.deadOracle = [])
    (hpend : s.mPendingURL = "") (hcur : s.mCurrentInternetStreamp = some cur)
    (hstream : cur.mInternetStream = none) :
    update s o = none := by
  unfold update
  simp [hdr, hpend, hcur, getOpenState, hstream]

theorem startStream_url (cur : LLAudioStreamManagerFMODSTUDIO) (st : FMOD_OPENSTATE)
    (ch : Option Nat) :
    (startStream cur st ch).2.mInternetStreamURL = cur.mInternetStreamURL := by
  unfold startStream
  split
  · rfl
  · split <;> rfl

theorem updateTail_mURL (s : LLStreamingAudio_FMODSTUDIO)
    (cur : LLAudioStreamManagerFMODSTUDIO) (st : FMOD_OPENSTATE) (o : UpdateOracle) :
    (updateTail s cur st o).mURL = s.mURL := by
  unfold updateTail
  by_cases hc : st = FMOD_OPENSTATE.ready ∧ s.mFMODInternetStreamChannelp = none
  · rw [if_pos hc]
    split
    · rw [stop_eq]
    · dsimp only
      split <;> rfl
  · rw [if_neg hc]
    split
    · rw [stop_eq]
    · dsimp only
      split <;> rfl

theorem updateTail_mPendingURL (s : LLStreamingAudio_FMODSTUDIO)
    (cur : LLAudioStreamManagerFMODSTUDIO) (st : FMOD_OPENSTATE) (o : UpdateOracle) :
    (updateTail s cur st o).mPendingURL = s.mPendingURL ∨
      (updateTail s cur st o).mPendingURL = "" := by
  unfold updateTail
  by_cases hc : st = FMOD_OPENSTATE.ready ∧ s.mFMODInternetStreamChannelp = none
  · rw [if_pos hc]
    split
    · right; rw [stop_eq]
    · dsimp only
      split <;> left <;> rfl
  · rw [if_neg hc]
    split
    · right; rw [stop_eq]
    · dsimp only
      split <;> left <;> rfl

theorem updateTail_dead_or_none (s : LLStreamingAudio_FMODSTUDIO)
    (cur : LLAudioStreamManagerFMODSTUDIO) (st : FMOD_OPENSTATE) (o : UpdateOracle)
    (hdead : s.mDeadStreams = []) :
    (updateTail s cur st o).mDeadStreams = [] ∨
      (updateTail s cur st o).mCurrentInternetStreamp = none := by
  unfold updateTail
  by_cases hc : st = FMOD_OPENSTATE.ready ∧ s.mFMODInternetStreamChannelp = none
  · rw [if_pos hc]
    split
    · right; rw [stop_eq]
    · dsimp only
      split <;> left <;> simpa using hdead
  · rw [if_neg hc]
    split
    · right; rw [stop_eq]
    · dsimp only
      split <;> left <;> simpa using hdead

theorem updateTail_current_of_ne_error (s : LLStreamingAudio_FMODSTUDIO)
    (cur : LLAudioStreamManagerFMODSTUDIO) (st : FMOD_OPENSTATE) (o : UpdateOracle)
    (herr : st ≠ FMOD_OPENSTATE.error) :
    (updateTail s cur st o).mCurrentInternetStreamp = s.mCurrentInternetStreamp ∨
      (updateTail s cur st o).mCurrentInternetStreamp =
        some (startStream cur st o.playChannel).2 := by
  unfold updateTail
  by_cases hc : st = FMOD_OPENSTATE.ready ∧ s.mFMODInternetStreamChannelp = none
  · rw [if_pos hc]
    rw [if_neg herr]
    dsimp only
    split <;> right <;> rfl
  · rw [if_neg hc]
    rw [if_neg herr]
    split <;> left <;> rfl

theorem update_running (s : LLStreamingAudio_FMODSTUDIO) (o : UpdateOracle)
    (cur : LLAudioStreamManagerFMODSTUDIO) (sid : Nat)
    (hdr : releaseDeadStreams s.mDeadStreams o.deadOracle = [])
    (hpend : s.mPendingURL = "") (hcur : s.mCurrentInternetStreamp = some cur)
    (hstream : cur.mInternetStream = some sid) :
    update s o = some (updateTail { s with mDeadStreams := [] } cur o.curState o) := by
  unfold update
  simp [hdr, hpend, hcur, getOpenState, hstream]

theorem update_promoted (s : LLStreamingAudio_FMODSTUDIO) (o : UpdateOracle) (sid : Nat)
    (hdr : releaseDeadStreams s.mDeadStreams o.deadOracle = [])
    (hpend : s.mPendingURL ≠ "") (hcr : o.createResult = some sid) :
    update s o =
      some (updateTail
        { s with mCurrentInternetStreamp :=
                   some (mkAudioStreamManager s.mPendingURL o.createResult),
                 mURL := s.mPendingURL, mMetaData := true, mPendingURL := "",
                 mDeadStreams := [] }
        (mkAudioStreamManager s.mPendingURL o.createResult) o.curState o) := by
  unfold update
  simp [hdr, hpend, getOpenState, mkAudioStreamManager, hcr]

theorem update_promote_crash (s : LLStreamingAudio_FMODSTUDIO) (o : UpdateOracle)
    (hdr : releaseDeadStreams s.mDeadStreams o.deadOracle = [])
    (hpend : s.mPendingURL ≠ "") (hcr : o.createResult = none) :
    update s o = none := by
  unfold update
  simp [hdr, hpend, getOpenState, mkAudioStreamManager, hcr]

theorem update_drained_dead_or_none (s : LLStreamingAudio_FMODSTUDIO) (o : UpdateOracle)
    (s₂ : LLStreamingAudio_FMODSTUDIO)
    (hdr : releaseDeadStreams s.mDeadStreams o.deadOracle = [])
    (hupd : update s o = some s₂) :
    s₂.mDeadStreams = [] ∨ s₂.mCurrentInternetStreamp = none := by
  by_cases hpend : s.mPendingURL = ""
  · cases hcur : s.mCurrentInternetStreamp with
    | none =>
      rw [update_drained_idle s o hdr hpend hcur] at hupd
      cases hupd
      left; rfl
    | some cur =>
      cases hstream : cur.mInternetStream with
      | none =>
        rw [update_crash s o cur hdr hpend hcur hstream] at hupd
        cases hupd
      | some sid =>
        rw [update_running s o cur sid hdr hpend hcur hstream] at hupd
        cases hupd
        exact updateTail_dead_or_none _ cur o.curState o rfl
  · cases hcr : o.createResult with
    | none =>
      rw [update_promote_crash s o hdr hpend hcr] at hupd
      cases hupd
    | some sid =>
      rw [update_promoted s o sid hdr hpend hcr] at hupd
      cases hupd
      exact updateTail_dead_or_none _ _ o.curState o rfl

theorem mkAudioStreamManager_url (url : String) (c : Option Nat) :
    (mkAudioStreamManager url c).mInternetStreamURL = url := by
  cases c <;> rfl


/-- Claim C1: for every sequence of start/stop/update calls at most one
stream handle is current at a time (the current slot is a single
optional field, and each operation re-establishes the exclusion
invariant that a non-empty dead list forces an empty current slot);
a start with a non-empty url finding a non-empty dead list after its
internal stop parks the url in the pending slot and creates no handle;
update creates a handle from the pending slot only once the dead list
has fully drained (while it has not, update only shrinks the dead list
and changes nothing else). -/
theorem claim_C1 (s : LLStreamingAudio_FMODSTUDIO) (url : String)
    (stopO : FMOD_OPENSTATE × Bool) (createO : Option Nat) (o : UpdateOracle)
    (sid : Nat) :
    ((start s url stopO createO).mDeadStreams ≠ [] →
      (start s url stopO createO).mCurrentInternetStreamp = none) ∧
    ((stop s stopO).mDeadStreams ≠ [] →
      (stop s stopO).mCurrentInternetStreamp = none) ∧
    (∀ s₂, (s.mDeadStreams ≠ [] → s.mCurrentInternetStreamp = none) →
      update s o = some s₂ →
      (s₂.mDeadStreams ≠ [] → s₂.mCurrentInternetStreamp = none)) ∧
    (url ≠ "" → (stop s stopO).mDeadStreams ≠ [] →
      start s url stopO createO = { stop s stopO with mPendingURL := url }) ∧
    (releaseDeadStreams s.mDeadStreams o.deadOracle ≠ [] →
      update s o =
        some { s with mDeadStreams := releaseDeadStreams s.mDeadStreams o.deadOracle }) ∧
    (releaseDeadStreams s.mDeadStreams o.deadOracle = [] → s.mPendingURL ≠ "" →
      o.createResult = some sid → o.curState ≠ .error →
      ∃ s₂ hdl, update s o = some s₂ ∧ s₂.mCurrentInternetStreamp = some hdl ∧
        hdl.mInternetStreamURL = s.mPendingURL ∧ s₂.mURL = s.mPendingURL ∧
        s₂.mPendingURL = "") := by
  refine ⟨?_, ?_, ?_, ?_, ?_, ?_⟩
  · by_cases hurl : url = ""
    · rw [start_eq_clear s url stopO createO hurl]
      intro _
      rw [stop_eq]
    · by_cases hdead : (stop s stopO).mDeadStreams = []
      · rw [start_eq_create s url stopO createO hurl hdead]
        intro hcontr
        exact absurd hdead hcontr
      · rw [start_eq_defer s url stopO createO hurl hdead]
        intro _
        rw [stop_eq]
  · intro _
    rw [stop_eq]
  · intro s₂ hInv hupd
    by_cases hdr : releaseDeadStreams s.mDeadStreams o.deadOracle = []
    · intro hd2
      rcases update_drained_dead_or_none s o s₂ hdr hupd with h | h
      · exact absurd h hd2
      · exact h
    · rw [update_undrained s o hdr] at hupd
      cases hupd
      intro _
      exact hInv (releaseDeadStreams_ne_nil hdr)
  · intro hurl hdead
    exact start_eq_defer s url stopO createO hurl hdead
  · intro hdr
    exact update_undrained s o hdr
  · intro hdr hpend hcr herr
    rw [update_promoted s o sid hdr hpend hcr]
    rcases updateTail_current_of_ne_error
        { s with mCurrentInternetStreamp :=
                   some (mkAudioStreamManager s.mPendingURL o.createResult),
                 mURL := s.mPendingURL, mMetaData := true, mPendingURL := "",
                 mDeadStreams := [] }
        (mkAudioStreamManager s.mPendingURL o.createResult) o.curState o herr with
      hcur | hcur
    · refine ⟨_, mkAudioStreamManager s.mPendingURL o.createResult, rfl, hcur, ?_, ?_, ?_⟩
      · exact mkAudioStreamManager_url _ _
      · exact updateTail_mURL _ _ _ _
      · rcases updateTail_mPendingURL
            { s with mCurrentInternetStreamp :=
                       some (mkAudioStreamManager s.mPendingURL o.createResult),
                     mURL := s.mPendingURL, mMetaData := true, mPendingURL := "",
                     mDeadStreams := [] }
            (mkAudioStreamManager s.mPendingURL o.createResult) o.curState o with
          hp | hp
        · exact hp
        · exact hp
    · refine ⟨_, _, rfl, hcur, ?_, ?_, ?_⟩
      · rw [startStream_url, mkAudioStreamManager_url]
      · exact updateTail_mURL _ _ _ _
      · rcases updateTail_mPendingURL
            { s with mCurrentInternetStreamp :=
                       some (mkAudioStreamManager s.mPendingURL o.createResult),
                     mURL := s.mPendingURL, mMetaData := true, mPendingURL := "",
                     mDeadStreams := [] }
            (mkAudioStreamManager s.mPendingURL o.createResult) o.curState o with
          hp | hp
        · exact hp
        · exact hp


/-- Claim C9: stop never modifies the remembered URL (it clears only the
pending URL, the metadata map, the channel reference and the current
handle), so getURL reads the same value after any stop; the remembered
URL is cleared only by a start with an empty url: a non-empty start
either installs the new url or leaves the old one, and update either
leaves mURL alone or overwrites it with the (non-empty) pending URL. -/
theorem claim_C9 (s : LLStreamingAudio_FMODSTUDIO) (url : String)
    (stopO : FMOD_OPENSTATE × Bool) (createO : Option Nat) (o : UpdateOracle) :
    getURL (stop s stopO) = getURL s ∧
    (stop s stopO).mPendingURL = "" ∧
    (stop s stopO).mMetaData = false ∧
    (stop s stopO).mFMODInternetStreamChannelp = none ∧
    (stop s stopO).mCurrentInternetStreamp = none ∧
    (url ≠ "" → (start s url stopO createO).mURL = url ∨
      (start s url stopO createO).mURL = s.mURL) ∧
    ((start s emptyURL stopO createO).mURL = "") ∧
    (∀ s₂, update s o = some s₂ →
      s₂.mURL = s.mURL ∨ (s₂.mURL = s.mPendingURL ∧ s.mPendingURL ≠ "")) := by
  refine ⟨?_, ?_, ?_, ?_, ?_, ?_, ?_, ?_⟩
  · unfold getURL; rw [stop_eq]
  · rw [stop_eq]
  · rw [stop_eq]
  · rw [stop_eq]
  · rw [stop_eq]
  · intro hurl
    by_cases hdead : (stop s stopO).mDeadStreams = []
    · rw [start_eq_create s url stopO createO hurl hdead]
      left; rfl
    · rw [start_eq_defer s url stopO createO hurl hdead]
      right
      show (stop s stopO).mURL = s.mURL
      rw [stop_eq]
  · rw [start_eq_clear s emptyURL stopO createO rfl]
  · intro s₂ hupd
    by_cases hdr : releaseDeadStreams s.mDeadStreams o.deadOracle = []
    · by_cases hpend : s.mPendingURL = ""
      · cases hcur : s.mCurrentInternetStreamp with
        | none =>
          rw [update_drained_idle s o hdr hpend hcur] at hupd
          cases hupd
          left; rfl
        | some cur =>
          cases hstream : cur.mInternetStream with
          | none =>
            rw [update_crash s o cur hdr hpend hcur hstream] at hupd
            cases hupd
          | some sid =>
            rw [update_running s o cur sid hdr hpend hcur hstream] at hupd
            cases hupd
            left
            exact updateTail_mURL _ _ _ _
      · cases hcr : o.createResult with
        | none =>
          rw [update_promote_crash s o hdr hpend hcr] at hupd
          cases hupd
        | some sid =>
          rw [update_promoted s o sid hdr hpend hcr] at hupd
          cases hupd
          right
          exact ⟨updateTail_mURL _ _ _ _, hpend⟩
    · rw [update_undrained s o hdr] at hupd
      cases hupd
      left; rfl

/-- Claim C10: getOpenState dereferences the handle's underlying stream
pointer unconditionally, so it is undefined (modelled none) exactly when
that pointer is null; a handle whose createStream failed is constructed
with a null stream pointer and mReady false, yet a start with a
non-empty url still installs it as the current handle, and the next
update polls it without any readiness check, hitting the undefined
dereference. -/
theorem claim_C10 (h : LLAudioStreamManagerFMODSTUDIO) (st : FMOD_OPENSTATE)
    (url : String) (s : LLStreamingAudio_FMODSTUDIO)
    (stopO : FMOD_OPENSTATE × Bool) (o : UpdateOracle) :
    (getOpenState h st = none ↔ h.mInternetStream = none) ∧
    ((mkAudioStreamManager url none).mInternetStream = none ∧
      (mkAudioStreamManager url none).mReady = false) ∧
    (url ≠ "" → s.mCurrentInternetStreamp = none → s.mDeadStreams = [] →
      (start s url stopO none).mCurrentInternetStreamp =
        some (mkAudioStreamManager url none) ∧
      update (start s url stopO none) o = none) := by
  refine ⟨?_, ⟨rfl, rfl⟩, ?_⟩
  · cases hstream : h.mInternetStream <;> simp [getOpenState, hstream]
  · intro hurl hcur hdead
    have hsd : (stop s stopO).mDeadStreams = [] := by
      rw [stop_eq, hcur, hdead]
      rfl
    rw [start_eq_create s url stopO none hurl hsd]
    refine ⟨rfl, ?_⟩
    apply update_crash _ o (mkAudioStreamManager url none)
    · show releaseDeadStreams (stop s stopO).mDeadStreams o.deadOracle = []
      rw [hsd]
      exact releaseDeadStreams_nil _
    · show (stop s stopO).mPendingURL = ""
      rw [stop_eq]
    · rfl
    · rfl


theorem pushMany_init_spec (ps : List ℚ) :
    (pushMany initWaveBuffer ps).data.length = (pushMany initWaveBuffer ps).size ∧
    (pushMany initWaveBuffer ps).size ≤ WAVE_BUFFER_SIZE ∧
    (pushMany initWaveBuffer ps).minSize = 0 ∧
    (pushMany initWaveBuffer ps).data =
      ps.reverse.take ((pushMany initWaveBuffer ps).size) := by
  have h := pushMany_spec ps initWaveBuffer rfl
    (by norm_num [initWaveBuffer, WAVE_BUFFER_SIZE])
    (by norm_num [initWaveBuffer, WAVE_BUFFER_SIZE])
  refine ⟨h.1, h.2.1, h.2.2.1, ?_⟩
  have hd := h.2.2.2.1
  simpa [initWaveBuffer] using hd

theorem pushMany_size_of_no_overflow (ps : List ℚ) (b : WaveBuffer)
    (h : b.size + ps.length ≤ WAVE_BUFFER_SIZE) :
    (pushMany b ps).size = b.size + ps.length := by
  induction ps generalizing b with
  | nil => simp [pushMany]
  | cons p ps ih =>
    have hs : ¬ b.size + 1 > WAVE_BUFFER_SIZE := by
      simp only [List.length_cons] at h
      omega
    have hfold : pushMany b (p :: ps) = pushMany (pushSample b p) ps := by
      simp [pushMany]
    have hnext : (pushSample b p).size = b.size + 1 := by
      rw [pushSample_of_not_full b p hs]
    rw [hfold, ih (pushSample b p) (by rw [hnext]; simp only [List.length_cons] at h; omega),
      hnext]
    simp only [List.length_cons]
    omega

theorem fillPushes_length : fillPushes.length = WAVE_BUFFER_SIZE := by
  unfold fillPushes WAVE_BUFFER_SIZE
  exact List.length_replicate _ _

theorem fillPushes_size : (pushMany initWaveBuffer fillPushes).size = WAVE_BUFFER_SIZE := by
  have h := pushMany_size_of_no_overflow fillPushes initWaveBuffer
    (by rw [fillPushes_length]; norm_num [initWaveBuffer])
  rw [h, fillPushes_length]
  norm_num [initWaveBuffer]

theorem pushMany_overflow_once (ys : List ℚ) (x : ℚ)
    (hlen : ys.length = WAVE_BUFFER_SIZE) :
    (pushMany initWaveBuffer (ys ++ [x])).size = 1 ∧
    (pushMany initWaveBuffer (ys ++ [x])).data = [x] := by
  have hfold : pushMany initWaveBuffer (ys ++ [x]) =
      pushSample (pushMany initWaveBuffer ys) x := by
    simp [pushMany, List.foldl_append]
  have hsz : (pushMany initWaveBuffer ys).size = WAVE_BUFFER_SIZE := by
    have h := pushMany_size_of_no_overflow ys initWaveBuffer
      (by simp [initWaveBuffer, hlen])
    simpa [initWaveBuffer, hlen] using h
  have hmin : (pushMany initWaveBuffer ys).minSize = 0 := (pushMany_init_spec ys).2.2.1
  rw [hfold, pushSample_of_full _ x (by omega)]
  refine ⟨?_, ?_⟩
  · dsimp only
    rw [hmin]
  · dsimp only
    rw [hmin, List.take_zero]

theorem getWaveData_snd (b : WaveBuffer) (count stride : Nat)
    (h : ¬ count > WAVE_BUFFER_SIZE / 2) :
    (getWaveData true true false b count stride).2 = { b with minSize := count } := by
  unfold getWaveData
  rw [if_neg h, if_neg (by simp), if_neg (by simp)]
  dsimp only
  split <;> rfl


/-- Claim C2 counterexample: writing 1025 samples through the callback
(with no watermark set) leaves the buffer holding a single sample, not
the most recent 1024; the claim that the buffer retains exactly the most
recent capacity samples fails at this input. -/
theorem claim_C2_counterexample :
    (waveDataCallback initWaveBuffer 1 overflowFrames).size = 1 ∧
    (waveDataCallback initWaveBuffer 1 overflowFrames).data = [(0 : ℚ)] ∧
    (waveDataCallback initWaveBuffer 1 overflowFrames).size ≠ WAVE_BUFFER_SIZE := by
  have hlocal : overflowFrames.map (fun frame => frame.sum / ((1 : Nat) : ℚ)) =
      List.replicate 1025 (0 : ℚ) := by
    unfold overflowFrames
    rw [List.map_replicate]
    norm_num
  have hsplit : (List.replicate 1025 (0 : ℚ)).reverse =
      List.replicate 1024 (0 : ℚ) ++ [(0 : ℚ)] := by
    rw [List.reverse_replicate]
    have h25 : (1025 : Nat) = 1024 + 1 := rfl
    rw [h25, List.replicate_succ']
  have hlen : overflowFrames.length = 1025 := by
    unfold overflowFrames
    exact List.length_replicate _ _
  have hcb : waveDataCallback initWaveBuffer 1 overflowFrames =
      pushMany initWaveBuffer (List.replicate 1024 (0 : ℚ) ++ [(0 : ℚ)]) := by
    unfold waveDataCallback
    rw [if_neg (by simp [hlen])]
    dsimp only
    rw [hlocal, hsplit]
  have h := pushMany_overflow_once (List.replicate 1024 (0 : ℚ)) 0
    (by rw [List.length_replicate]; rfl)
  rw [hcb]
  refine ⟨h.1, h.2, ?_⟩
  rw [h.1]
  decide

/-- Claim C2 (amended): a write sequence exceeding the capacity does not
keep the most recent 1024 samples; instead, the eviction pass triggered
by each overflowing write keeps exactly 1 + w samples, namely the new
sample followed by the w = watermark most recently inserted samples,
contiguously at the head of the region (the tail of the written array),
where w was recorded by the last getWaveData call. -/
theorem claim_C2 (ps qs : List ℚ) (count stride : Nat) (x : ℚ)
    (hcount : count ≤ WAVE_BUFFER_SIZE / 2)
    (hfull :
      (pushMany (getWaveData true true false (pushMany initWaveBuffer ps) count stride).2
          qs).size = WAVE_BUFFER_SIZE) :
    (pushSample
        (pushMany (getWaveData true true false (pushMany initWaveBuffer ps) count stride).2
          qs) x).size = 1 + count ∧
    (pushSample
        (pushMany (getWaveData true true false (pushMany initWaveBuffer ps) count stride).2
          qs) x).data = x :: (qs.reverse ++ ps.reverse).take count := by
  have hW : WAVE_BUFFER_SIZE = 1024 := rfl
  have hns : ¬ count > WAVE_BUFFER_SIZE / 2 := by omega
  rw [getWaveData_snd _ count stride hns] at hfull ⊢
  have spec1 := pushMany_init_spec ps
  have spec2 := pushMany_spec qs { pushMany initWaveBuffer ps with minSize := count }
    spec1.1 spec1.2.1 (by dsimp only; omega)
  dsimp only at spec2
  have hm3 :
      (pushMany { pushMany initWaveBuffer ps with minSize := count } qs).minSize =
        count := spec2.2.2.1
  rw [pushSample_of_full _ x (by omega)]
  refine ⟨by dsimp only; rw [hm3], ?_⟩
  dsimp only
  rw [hm3, spec2.2.2.2.1]
  congr 1
  rw [List.take_take, min_eq_left (by omega)]
  rw [spec1.2.2.2]
  have hq := spec2.2.2.2.2
  rw [List.take_append_eq_append_take, List.take_append_eq_append_take, List.take_take,
    min_eq_left (by simp only [List.length_reverse] at hq ⊢; omega)]

/-- Claim C2 witness: fill the buffer with 1024 samples, record a
watermark of 2 by a getWaveData call, and push one more sample: the
buffer compacts to that sample followed by the 2 most recent ones. -/
theorem claim_C2_witness :
    (pushSample
        (pushMany (getWaveData true true false (pushMany initWaveBuffer fillPushes) 2 1).2
          []) 5).size = 1 + 2 ∧
    (pushSample
        (pushMany (getWaveData true true false (pushMany initWaveBuffer fillPushes) 2 1).2
          []) 5).data = (5 : ℚ) :: (([] : List ℚ).reverse ++ fillPushes.reverse).take 2 :=
  claim_C2 fillPushes [] 2 1 5 (by decide)
    (by
      have hnil :
          pushMany (getWaveData true true false (pushMany initWaveBuffer fillPushes) 2 1).2
            [] =
          (getWaveData true true false (pushMany initWaveBuffer fillPushes) 2 1).2 := rfl
      rw [hnil, getWaveData_snd _ 2 1 (by decide)]
      dsimp only
      exact fillPushes_size)

/-- Claim C3: getWaveData aborts fatally when count exceeds half the
buffer capacity; within bounds it returns false when the channel or
current stream is missing, when the channel is muted, or when the fill
count is zero; otherwise it returns the min(count, fill) most recently
inserted samples padded with count - fill zeros, and records count as
the new watermark. -/
theorem claim_C3 (hasCh hasStr muted : Bool) (ps : List ℚ) (count stride : Nat) :
    (count > WAVE_BUFFER_SIZE / 2 →
      (getWaveData hasCh hasStr muted (pushMany initWaveBuffer ps) count stride).1 =
        WaveStatus.fatal) ∧
    (count ≤ WAVE_BUFFER_SIZE / 2 →
      ((hasCh = false ∨ hasStr = false) →
        (getWaveData hasCh hasStr muted (pushMany initWaveBuffer ps) count stride).1 =
          WaveStatus.noData) ∧
      (hasCh = true → hasStr = true → muted = true →
        (getWaveData hasCh hasStr muted (pushMany initWaveBuffer ps) count stride).1 =
          WaveStatus.noData) ∧
      (hasCh = true → hasStr = true → muted = false →
        (pushMany initWaveBuffer ps).size = 0 →
        (getWaveData hasCh hasStr muted (pushMany initWaveBuffer ps) count stride).1 =
          WaveStatus.noData) ∧
      (hasCh = true → hasStr = true → muted = false →
        (pushMany initWaveBuffer ps).size ≠ 0 →
        (getWaveData hasCh hasStr muted (pushMany initWaveBuffer ps) count stride).1 =
          WaveStatus.ok
            (ps.reverse.take (min count (pushMany initWaveBuffer ps).size) ++
              List.replicate (count - (pushMany initWaveBuffer ps).size) 0) ∧
        (getWaveData hasCh hasStr muted (pushMany initWaveBuffer ps) count stride).2.minSize =
          count)) := by
  constructor
  · intro hbig
    unfold getWaveData
    rw [if_pos hbig]
  · intro hsmall
    have hns : ¬ count > WAVE_BUFFER_SIZE / 2 := by omega
    refine ⟨?_, ?_, ?_, ?_⟩
    · intro hch
      unfold getWaveData
      rw [if_neg hns, if_pos hch]
    · intro h1 h2 h3
      subst h1; subst h2; subst h3
      unfold getWaveData
      rw [if_neg hns, if_neg (by simp), if_pos rfl]
    · intro h1 h2 h3 hsz
      subst h1; subst h2; subst h3
      unfold getWaveData
      rw [if_neg hns, if_neg (by simp), if_neg (by simp)]
      dsimp only
      rw [if_pos hsz]
    · intro h1 h2 h3 hsz
      subst h1; subst h2; subst h3
      unfold getWaveData
      rw [if_neg hns, if_neg (by simp), if_neg (by simp)]
      dsimp only
      rw [if_neg hsz]
      refine ⟨?_, rfl⟩
      have hd := (pushMany_init_spec ps).2.2.2
      dsimp only
      rw [hd, List.take_take, min_eq_left (min_le_right count _)]

/-- Claim C3 witness: three samples in the buffer, five requested: the
call succeeds with the three most recent samples and two zeros, and the
watermark becomes five. -/
theorem claim_C3_witness :
    (getWaveData true true false (pushMany initWaveBuffer wavePushes) 5 1).1 =
      WaveStatus.ok
        (wavePushes.reverse.take (min 5 (pushMany initWaveBuffer wavePushes).size) ++
          List.replicate (5 - (pushMany initWaveBuffer wavePushes).size) 0) ∧
    (getWaveData true true false (pushMany initWaveBuffer wavePushes) 5 1).2.minSize = 5 :=
  ((claim_C3 true true false wavePushes 5 1).2 (by decide)).2.2.2 rfl rfl rfl (by decide)


/-- Claim C4 (code-bug evidence): the BOM parse in utf16input_to_utf8
compares plain (signed) chars against 0xFE/0xFF, which can never hold,
so no marker is ever stripped, and even with the marker matched the
endianness would be read from the byte after the marker; evaluated at
the claim's inputs, FF FE 41 00 yields units FFFE 4100 and FE FF 00 41
yields units FEFF 0041, neither the single unit 0041 that decodes to
"A"; only the marker-free big-endian input 00 41 yields 0041. -/
theorem claim_C4 :
    utf16input_to_utf16units [0xFF, 0xFE, 0x41, 0x00] utf_endian_type_t.UTF16 =
      [0xFFFE, 0x4100] ∧
    utf16input_to_utf16units [0xFF, 0xFE, 0x41, 0x00] utf_endian_type_t.UTF16 ≠ [0x41] ∧
    utf16input_to_utf16units [0xFE, 0xFF, 0x00, 0x41] utf_endian_type_t.UTF16 =
      [0xFEFF, 0x41] ∧
    utf16input_to_utf16units [0xFE, 0xFF, 0x00, 0x41] utf_endian_type_t.UTF16 ≠ [0x41] ∧
    utf16input_to_utf16units [0x00, 0x41] utf_endian_type_t.UTF16 = [0x41] := by
  refine ⟨by decide, by decide, by decide, by decide, by decide⟩

theorem runStarvingTicks_of_paused (ts : List Nat) :
    runStarvingTicks true ts = (true, []) := by
  induction ts with
  | nil => rfl
  | cons p ps ih => simp [runStarvingTicks, starvationPolicy, ih]

/-- Claim C5: the starvation block pauses exactly once when starving
with the channel unpaused, issues nothing when starving with the channel
already paused, unpauses when not starving with more than 80 percent
buffered; over any run of consecutive starving ticks, an initially
paused channel receives no pause call and an unpaused one exactly one. -/
theorem claim_C5 (starving paused paused₀ : Bool) (progress : Nat) (ticks : List Nat) :
    (starving = true → paused = false →
      starvationPolicy starving progress paused = (true, [ChannelCmd.setPaused true])) ∧
    (starving = true → paused = true →
      starvationPolicy starving progress paused = (true, [])) ∧
    (starving = false → progress > 80 →
      starvationPolicy starving progress paused = (false, [ChannelCmd.setPaused false])) ∧
    (pauseCalls (runStarvingTicks paused₀ ticks).2 =
      if paused₀ = true then 0 else min ticks.length 1) := by
  refine ⟨?_, ?_, ?_, ?_⟩
  · intro hs hp
    subst hs; subst hp
    simp [starvationPolicy]
  · intro hs hp
    subst hs; subst hp
    simp [starvationPolicy]
  · intro hs hp
    subst hs
    simp [starvationPolicy, hp]
  · cases hp : paused₀ with
    | true =>
      rw [runStarvingTicks_of_paused]
      simp [pauseCalls]
    | false =>
      cases ticks with
      | nil => simp [runStarvingTicks, pauseCalls]
      | cons t ts =>
        have h1 : starvationPolicy true t false = (true, [ChannelCmd.setPaused true]) := by
          simp [starvationPolicy]
        have h2 : runStarvingTicks false (t :: ts) = (true, [ChannelCmd.setPaused true]) := by
          simp [runStarvingTicks, h1, runStarvingTicks_of_paused]
        rw [h2, if_neg (by decide)]
        have h3 : pauseCalls (true, [ChannelCmd.setPaused true]).2 = 1 := rfl
        rw [h3]
        simp only [List.length_cons]
        omega

/-- Claim C5 witness: concrete instances of all three per-tick rules and
a three-tick starving run from an unpaused channel with one pause
call. -/
theorem claim_C5_witness :
    starvationPolicy true 0 false = (true, [ChannelCmd.setPaused true]) ∧
    starvationPolicy true 0 true = (true, []) ∧
    starvationPolicy false 90 true = (false, [ChannelCmd.setPaused false]) ∧
    pauseCalls (runStarvingTicks false [10, 20, 30]).2 =
      if (false : Bool) = true then 0 else min ([10, 20, 30] : List Nat).length 1 :=
  ⟨(claim_C5 true false false 0 []).1 rfl rfl,
   (claim_C5 true true false 0 []).2.1 rfl rfl,
   (claim_C5 false true false 90 []).2.2.1 rfl (by decide),
   (claim_C5 true false false 0 [10, 20, 30]).2.2.2⟩

/-- Claim C6: stopStream on a live stream defers the close (returns
false, release not even attempted) exactly when the open state is
CONNECTING; in every other state it attempts the release, returns
whether the release succeeded, clears the stream and channel references
on success and leaves the handle untouched on failure. -/
theorem claim_C6 (h : LLAudioStreamManagerFMODSTUDIO) (sid : Nat)
    (st : FMOD_OPENSTATE) (releaseOk : Bool) (hs : h.mInternetStream = some sid) :
    (st = FMOD_OPENSTATE.connecting →
      stopStream h st releaseOk = (false, h, false)) ∧
    (st ≠ FMOD_OPENSTATE.connecting →
      (stopStream h st releaseOk).2.2 = true ∧
      (stopStream h st releaseOk).1 = releaseOk ∧
      (releaseOk = true →
        (stopStream h st releaseOk).2.1.mInternetStream = none ∧
        (stopStream h st releaseOk).2.1.mStreamChannel = none) ∧
      (releaseOk = false → (stopStream h st releaseOk).2.1 = h)) := by
  constructor
  · intro hc
    subst hc
    unfold stopStream
    rw [hs]
    simp
  · intro hc
    unfold stopStream
    rw [hs]
    cases releaseOk <;> simp [hc]

/-- Claim C6 witness: a connecting stream defers its close; a ready
stream releases successfully and clears its references. -/
theorem claim_C6_witness :
    stopStream sampleHandle FMOD_OPENSTATE.connecting true =
      (false, sampleHandle, false) ∧
    (stopStream sampleHandle FMOD_OPENSTATE.ready true).1 = true ∧
    (stopStream sampleHandle FMOD_OPENSTATE.ready true).2.1.mInternetStream = none ∧
    (stopStream sampleHandle FMOD_OPENSTATE.ready true).2.1.mStreamChannel = none :=
  ⟨(claim_C6 sampleHandle 3 FMOD_OPENSTATE.connecting true rfl).1 rfl,
   ((claim_C6 sampleHandle 3 FMOD_OPENSTATE.ready true rfl).2 (by decide)).2.1,
   ((claim_C6 sampleHandle 3 FMOD_OPENSTATE.ready true rfl).2 (by decide)).2.2.1 rfl |>.1,
   ((claim_C6 sampleHandle 3 FMOD_OPENSTATE.ready true rfl).2 (by decide)).2.2.1 rfl |>.2⟩

/-- Claim C7 (code-bug evidence): the UTF-8 branch compares plain
(signed) chars against 0xEF 0xBB 0xBF, which can never hold, so a
leading UTF-8 byte-order marker is never stripped: on payload
EF BB BF 41 the stored bytes keep the marker instead of reducing to the
single byte 41; the single-trailing-null strip itself works. -/
theorem claim_C7 :
    storeTagStringUTF8 [0xEF, 0xBB, 0xBF, 0x41] = [0xEF, 0xBB, 0xBF, 0x41] ∧
    storeTagStringUTF8 [0xEF, 0xBB, 0xBF, 0x41] ≠ [0x41] ∧
    storeTagStringUTF8 [0x41, 0x42, 0x00] = [0x41, 0x42] ∧
    storeTagStringUTF8 [0x41, 0x42] = [0x41, 0x42] ∧
    storeTagStringUTF8 [0xEF, 0xBB, 0xBF, 0x41, 0x00] = [0xEF, 0xBB, 0xBF, 0x41] := by
  refine ⟨by decide, by decide, by decide, by decide, by decide⟩

/-- Claim C8: setGain stores the gain linearly (getGain reads back the
set value unchanged) while a live channel receives the square of the
gain clamped into [0,1]; for 0.5 the stored value reads back 0.5 and the
channel receives 0.25. -/
theorem claim_C8 (s : LLStreamingAudio_FMODSTUDIO) (v : ℚ) :
    getGain (setGain s v).1 = v ∧
    (s.mFMODInternetStreamChannelp ≠ none →
      (setGain s v).2 = some (llclamp (v * v) 0 1)) ∧
    getGain (setGain s (1 / 2)).1 = 1 / 2 ∧
    (s.mFMODInternetStreamChannelp ≠ none →
      (setGain s (1 / 2)).2 = some (1 / 4)) := by
  refine ⟨?_, ?_, ?_, ?_⟩
  · cases hch : s.mFMODInternetStreamChannelp <;> simp [setGain, getGain, hch]
  · intro hne
    cases hch : s.mFMODInternetStreamChannelp with
    | none => exact absurd hch hne
    | some c => simp [setGain, hch]
  · cases hch : s.mFMODInternetStreamChannelp <;> simp [setGain, getGain, hch]
  · intro hne
    cases hch : s.mFMODInternetStreamChannelp with
    | none => exact absurd hch hne
    | some c =>
      simp [setGain, hch, llclamp]
      norm_num

/-- Claim C8 witness: on a controller with a live channel, setGain 0.5
reads back 0.5 and applies 0.25 to the channel. -/
theorem claim_C8_witness :
    getGain (setGain playingState (1 / 2)).1 = 1 / 2 ∧
    (setGain playingState (1 / 2)).2 = some (1 / 4) :=
  ⟨(claim_C8 playingState (1 / 2)).2.2.1,
   (claim_C8 playingState (1 / 2)).2.2.2 (by decide)⟩


/-- Claim C1 witness: with one undrainable dead stream, a start defers
into the pending slot and an update only re-attempts the drain; with the
dead list empty, an update promotes the pending url to a fresh
handle. -/
theorem claim_C1_witness :
    (start busyState urlA (FMOD_OPENSTATE.ready, true) none =
      { stop busyState (FMOD_OPENSTATE.ready, true) with mPendingURL := urlA }) ∧
    (update busyState failOracle =
      some { busyState with
               mDeadStreams :=
                 releaseDeadStreams busyState.mDeadStreams failOracle.deadOracle }) ∧
    (∃ s₂ hdl, update pendingState goodOracle = some s₂ ∧
      s₂.mCurrentInternetStreamp = some hdl ∧
      hdl.mInternetStreamURL = pendingState.mPendingURL ∧
      s₂.mURL = pendingState.mPendingURL ∧ s₂.mPendingURL = "") :=
  ⟨(claim_C1 busyState urlA (FMOD_OPENSTATE.ready, true) none failOracle 9).2.2.2.1
      (by decide) (by decide),
   (claim_C1 busyState urlA (FMOD_OPENSTATE.ready, true) none failOracle 9).2.2.2.2.1
      (by decide),
   (claim_C1 pendingState urlA (FMOD_OPENSTATE.ready, true) none goodOracle 9).2.2.2.2.2
      (by decide) (by decide) (by decide) (by decide)⟩

/-- Claim C9 witness: stop on a concrete state preserves getURL; a
non-empty start keeps or replaces (never clears) the remembered URL; an
empty start clears it; an update that returns early keeps it. -/
theorem claim_C9_witness :
    getURL (stop busyState (FMOD_OPENSTATE.ready, true)) = getURL busyState ∧
    ((start busyState urlA (FMOD_OPENSTATE.ready, true) none).mURL = urlA ∨
      (start busyState urlA (FMOD_OPENSTATE.ready, true) none).mURL = busyState.mURL) ∧
    (start busyState emptyURL (FMOD_OPENSTATE.ready, true) none).mURL = "" ∧
    ({ busyState with
         mDeadStreams :=
           releaseDeadStreams busyState.mDeadStreams failOracle.deadOracle }.mURL =
        busyState.mURL ∨
      ({ busyState with
           mDeadStreams :=
             releaseDeadStreams busyState.mDeadStreams failOracle.deadOracle }.mURL =
          busyState.mPendingURL ∧ busyState.mPendingURL ≠ "")) :=
  ⟨(claim_C9 busyState urlA (FMOD_OPENSTATE.ready, true) none failOracle).1,
   (claim_C9 busyState urlA (FMOD_OPENSTATE.ready, true) none failOracle).2.2.2.2.2.1
      (by decide),
   (claim_C9 busyState urlA (FMOD_OPENSTATE.ready, true) none failOracle).2.2.2.2.2.2.1,
   (claim_C9 busyState urlA (FMOD_OPENSTATE.ready, true) none failOracle).2.2.2.2.2.2.2 _
      (update_undrained busyState failOracle (by decide))⟩

/-- Claim C10 witness: starting a url whose createStream fails installs
a not-ready handle with a null stream as current, and the next update
hits the unchecked dereference. -/
theorem claim_C10_witness :
    (start idleState urlA (FMOD_OPENSTATE.ready, true) none).mCurrentInternetStreamp =
      some (mkAudioStreamManager urlA none) ∧
    update (start idleState urlA (FMOD_OPENSTATE.ready, true) none) failOracle = none :=
  (claim_C10 sampleHandle FMOD_OPENSTATE.ready urlA idleState
      (FMOD_OPENSTATE.ready, true) failOracle).2.2 (by decide) rfl rfl

end StreamingAudio
